import Mathlib

/-!
Formal model of the MediumArticleWriter generation/validation/regeneration
workflow, translated from the Python sources (`app/agents/graph.py`, the eight
validator modules, `app/utils/latex_handler.py`, `app/database/operations.py`,
`app/api/routes.py`).  Scores are modelled as rationals, Python dicts as
insertion-ordered association lists, and the asynchronous adapter calls as
explicit inputs (a value for a successful response, `none` for a raised
exception).  Persistence calls that mutate the database are modelled as an
explicit event list where a claim depends on them.
-/

namespace MediumArticleWriter

/-! ## Configuration constants (app/config.py) -/

/-- `Settings.MAX_RETRIES` from app/config.py. -/
def MAX_RETRIES : Nat := 5

/-- `Settings.MIN_SCORE_THRESHOLD` from app/config.py. -/
def MIN_SCORE_THRESHOLD : ℚ := 7.5

/-- `Settings.PUBLISH_THRESHOLD` from app/config.py. -/
def PUBLISH_THRESHOLD : ℚ := 8.5

/-! ## Python dict model

Python dicts preserve insertion order; writing an existing key updates the
entry in place, writing a fresh key appends it.  We model a dict as an
association list and `d[k] = v`, `d.get(k, dflt)`, `k in d` as follows. -/

/-- `d.get(k)` : the value stored at key `k`, if any (first match). -/
def dictGet {α : Type} (d : List (String × α)) (k : String) : Option α :=
  (d.find? (fun p => p.1 = k)).map (fun p => p.2)

/-- `d.get(k, dflt)` with a default. -/
def dictGetD {α : Type} (d : List (String × α)) (k : String) (dflt : α) : α :=
  (dictGet d k).getD dflt

/-- `k in d`. -/
def dictMem {α : Type} (d : List (String × α)) (k : String) : Bool :=
  d.any (fun p => p.1 = k)

/-- `d[k] = v` : update in place if the key exists, append otherwise. -/
def dictSet {α : Type} (d : List (String × α)) (k : String) (v : α) : List (String × α) :=
  if dictMem d k then d.map (fun p => if p.1 = k then (k, v) else p)
  else d ++ [(k, v)]

/-! ## State (app/agents/state.py) -/

/-- A value stored in the free-form `metadata` / `requirements` mappings. -/
inductive MetaVal : Type
  | str (s : String)
  | num (q : ℚ)
  deriving Repr, DecidableEq

/-- A structured validation judgment returned by
`generator.validate_content`: the fields the validator stages read from the
result dict (each with the default used by the corresponding `.get`). -/
structure Judgment : Type where
  score : ℚ
  feedback : String
  word_count : ℚ
  read_time : String
  flesch_reading_ease : ℚ
  gunning_fog_index : ℚ
  deriving Repr, DecidableEq

/-- The `ArticleState` TypedDict of app/agents/state.py.  Timestamps are
modelled as naturals. -/
structure ArticleState : Type where
  session_id : String
  article_id : String
  topic : String
  author : String
  target_audience : String
  article_type : String
  tone : String
  requirements : List (String × MetaVal)
  content : String
  title : String
  metadata : List (String × MetaVal)
  scores : List (String × ℚ)
  overall_score : ℚ
  feedback : List (String × Judgment)
  retry_counts : List (String × Nat)
  needs_regeneration : Bool
  failed_nodes : List String
  current_node : String
  iteration : Nat
  has_code : Bool
  has_math : Bool
  status : String
  error : Option String
  started_at : Nat
  updated_at : Nat
  deriving Repr, DecidableEq

/-! ## Content predicates (app/validators/math.py, app/validators/code.py) -/

/-- First index (if any) at which `pat` occurs as a contiguous sublist. -/
def findSub (pat : List Char) : List Char → Option Nat
  | [] => if pat.isEmpty then some 0 else none
  | c :: rest =>
    if pat.isPrefixOf (c :: rest) then some 0
    else (findSub pat rest).map (fun n => n + 1)

/-- Split a character list into its newline-separated lines. -/
def splitLines : List Char → List (List Char)
  | [] => [[]]
  | '\n' :: rest => [] :: splitLines rest
  | c :: rest =>
    match splitLines rest with
    | l :: ls => (c :: l) :: ls
    | [] => [[c]]

/-- `check_has_math` from app/validators/math.py: whether the pattern
`\$.*?\$` matches, i.e. whether some line of the content (the dot does not
match a newline) contains two dollar signs. -/
def check_has_math (content : String) : Bool :=
  (splitLines content.toList).any (fun line =>
    2 ≤ (line.filter (fun c => c = '$')).length)

/-- `check_has_code` from app/validators/code.py: whether the pattern
(three backticks)`[\s\S]*?`(three backticks) matches, i.e. whether a
triple-backtick fence occurs twice without overlap. -/
def check_has_code (content : String) : Bool :=
  match findSub "```".toList content.toList with
  | none => false
  | some i =>
    (findSub "```".toList (content.toList.drop (i + 3))).isSome

/-! ## LaTeX equation handling (app/utils/latex_handler.py) -/

/-- First index at which two consecutive dollar signs start. -/
def findDD : List Char → Option Nat
  | '$' :: '$' :: _ => some 0
  | _ :: rest => (findDD rest).map (fun n => n + 1)
  | [] => none

/-- First index of a dollar sign. -/
def findD : List Char → Option Nat
  | '$' :: _ => some 0
  | _ :: rest => (findD rest).map (fun n => n + 1)
  | [] => none

/-- All matches of the display pattern `\$\$(.*?)\$\$` (DOTALL), as
`(group text, start, stop)` with positions relative to the scanned text,
scanning left to right without overlap; the lazy group takes the shortest
body.  `fuel` bounds the recursion (the scan always consumes characters). -/
def ddScan : Nat → List Char → Nat → List (List Char × Nat × Nat)
  | 0, _, _ => []
  | fuel + 1, cs, base =>
    match findDD cs with
    | none => []
    | some i =>
      match findDD (cs.drop (i + 2)) with
      | none => []
      | some k =>
        let body := (cs.drop (i + 2)).take k
        let stop := i + 2 + k + 2
        (body, base + i, base + stop) :: ddScan fuel (cs.drop stop) (base + stop)

/-- All matches of the inline pattern `\$([^\$]+?)\$`, as
`(group text, start)`: an opening dollar, a shortest nonempty run of
non-dollar characters, and a closing dollar. -/
def inlScan : Nat → List Char → Nat → List (List Char × Nat)
  | 0, _, _ => []
  | fuel + 1, cs, base =>
    match findD cs with
    | none => []
    | some i =>
      match findD (cs.drop (i + 1)) with
      | none => []
      | some 0 => inlScan fuel (cs.drop (i + 1)) (base + i + 1)
      | some (k + 1) =>
        let body := (cs.drop (i + 1)).take (k + 1)
        (body, base + i) :: inlScan fuel (cs.drop (i + k + 3)) (base + i + k + 3)

/-- A whitespace character in the sense of Python's `str.strip`. -/
def isPyWhitespace (c : Char) : Bool :=
  c = ' ' ∨ c = '\t' ∨ c = '\n' ∨ c = '\r' ∨ c = '\x0b' ∨ c = '\x0c'

/-- Python's `str.strip`: drop whitespace from both ends. -/
def stripChars (l : List Char) : List Char :=
  ((l.dropWhile isPyWhitespace).reverse.dropWhile isPyWhitespace).reverse

/-- Python's `str.replace`: replace every non-overlapping occurrence of
`pat` (assumed nonempty here), scanning left to right.  The fuel bounds the
recursion; `cs.length` always suffices for a nonempty pattern. -/
def replaceAllL : Nat → List Char → List Char → List Char → List Char
  | 0, cs, _, _ => cs
  | fuel + 1, cs, pat, rep =>
    match findSub pat cs with
    | none => cs
    | some i =>
      cs.take i ++ rep ++ replaceAllL fuel (cs.drop (i + pat.length)) pat rep

/-- One extracted equation: `(equation, mode, position)` with the equation
text stripped, as produced by `LaTeXHandler.extract_equations`. -/
structure Equation : Type where
  body : String
  mode : String
  pos : Nat
  deriving Repr, DecidableEq

/-- `LaTeXHandler.extract_equations`: collect the display matches over the
original content, delete every occurrence of each full display match from a
working copy, then collect the inline matches over that copy.  Display
equations come first in the result. -/
def extract_equations (content : String) : List Equation :=
  let cs := content.toList
  let dd := ddScan (cs.length + 1) cs 0
  let displayEqs := dd.map (fun m => Equation.mk (String.mk (stripChars m.1)) "display" m.2.1)
  let content_without_display :=
    dd.foldl (fun acc m =>
      replaceAllL acc.length acc ('$' :: '$' :: (m.1 ++ ['$', '$'])) []) cs
  let inl := inlScan (content_without_display.length + 1) content_without_display 0
  displayEqs ++ inl.map (fun m => Equation.mk (String.mk (stripChars m.1)) "inline" m.2)

/-- Replace the first occurrence of `pat` in `s` by `rep`
(`re.sub(re.escape(pat), rep, s, count=1)`). -/
def replaceFirst (s pat rep : String) : String :=
  match findSub pat.toList s.toList with
  | none => s
  | some i =>
    String.mk (s.toList.take i ++ rep.toList ++ s.toList.drop (i + pat.toList.length))

/-- `LaTeXHandler.process_article_equations`: extract the equations, and for
each one in order replace its first occurrence (rebuilt from the stripped
body in its mode's delimiters) by a markdown image reference.  Image
rendering (`latex_to_image`) only produces a file on disk; it is modelled as
always succeeding, which is the assumption the claims make, so no equation
is skipped.  Returns the modified content and the number of processed
equations. -/
def process_article_equations (content article_id : String) : String × Nat :=
  let equations := extract_equations content
  if equations.isEmpty then (content, 0)
  else
    let r := equations.enum.foldl
      (fun (acc : String × List String) (p : Nat × Equation) =>
        let idx := p.1
        let eq := p.2
        let filename := "eq_" ++ article_id ++ "_" ++ toString idx ++ ".png"
        let image_ref :=
          "\n\n![Equation " ++ toString (idx + 1) ++ "](/static/images/" ++ filename ++ ")\n\n"
        let pat :=
          if eq.mode = "display" then "$$" ++ eq.body ++ "$$" else "$" ++ eq.body ++ "$"
        (replaceFirst acc.1 pat image_ref, acc.2 ++ [filename]))
      (content, [])
    (r.1, r.2.length)

/-! ## Persistence events

Only write operations that a claim depends on are tracked; reads and log
writes have no effect on the workflow state. -/

/-- A database write performed by a workflow node. -/
inductive DbEvent : Type
  | createVersion (article_id : String) (node_name : String)
  | saveCheckpoint (article_id : String) (node_name : String)
  | updateArticle (article_id : String) (status : String)
  deriving Repr, DecidableEq

/-! ## Validator stages (app/validators/*.py)

Each stage takes the adapter's reply to `generator.validate_content` as an
explicit input: `some j` for a structured judgment, `none` when the call
raises (network/parse failure).  The eight Python stage functions are
line-for-line copies of one another apart from the stage name, the
content gates in math.py and code.py, and the metadata enrichment in
length.py and readability.py; `applyJudgment` is that shared body. -/

/-- The shared post-judgment body of every validator stage: record score and
feedback, and on a sub-threshold score append the stage to `failed_nodes`,
bump its retry counter, and mark the state failed once the counter reaches
`MAX_RETRIES`.  (`db_ops.add_validation_log` writes only to the log table.) -/
def applyJudgment (name : String) (j : Judgment) (s : ArticleState) : ArticleState :=
  let score := j.score
  let s1 := { s with scores := dictSet s.scores name score,
                     feedback := dictSet s.feedback name j }
  if score < MIN_SCORE_THRESHOLD then
    let rc := dictGetD s1.retry_counts name 0 + 1
    let s2 := { s1 with failed_nodes := s1.failed_nodes ++ [name],
                        retry_counts := dictSet s1.retry_counts name rc }
    if MAX_RETRIES ≤ rc then
      { s2 with status := "failed",
                error := some (name ++ " validation failed after max retries") }
    else s2
  else s1

/-- A plain (ungated) validator stage; `none` models the `except` branch
that records `status = "error"` and returns the state. -/
def runStage (name : String) (res : Option Judgment) (s : ArticleState) : ArticleState :=
  match res with
  | none => { s with status := "error", error := some (name ++ " validation error") }
  | some j => applyJudgment name j s

/-- `validate_structure` (app/validators/structure.py). -/
def validate_structure (res : Option Judgment) (s : ArticleState) : ArticleState :=
  runStage "structure" res s

/-- `validate_language` (app/validators/language.py). -/
def validate_language (res : Option Judgment) (s : ArticleState) : ArticleState :=
  runStage "language" res s

/-- `validate_grammar` (app/validators/grammar.py). -/
def validate_grammar (res : Option Judgment) (s : ArticleState) : ArticleState :=
  runStage "grammar" res s

/-- `validate_length` (app/validators/length.py): additionally stores
`word_count` and `read_time` from the judgment into the metadata before the
threshold check. -/
def validate_length (res : Option Judgment) (s : ArticleState) : ArticleState :=
  match res with
  | none => { s with status := "error", error := some ("length validation error") }
  | some j =>
    let s1 := { s with scores := dictSet s.scores "length" j.score,
                       feedback := dictSet s.feedback "length" j }
    let md := dictSet (dictSet s1.metadata "word_count" (MetaVal.num j.word_count))
      "read_time" (MetaVal.str j.read_time)
    let s2 := { s1 with metadata := md }
    if j.score < MIN_SCORE_THRESHOLD then
      let rc := dictGetD s2.retry_counts "length" 0 + 1
      let s3 := { s2 with failed_nodes := s2.failed_nodes ++ ["length"],
                          retry_counts := dictSet s2.retry_counts "length" rc }
      if MAX_RETRIES ≤ rc then
        { s3 with status := "failed",
                  error := some ("length validation failed after max retries") }
      else s3
    else s2

/-- `validate_math` (app/validators/math.py): records the `has_math` flag,
and when the content has no `\$.*?\$` span, writes a perfect score and a
fixed not-applicable feedback without consulting the adapter. -/
def validate_math (res : Option Judgment) (s : ArticleState) : ArticleState :=
  let hm := check_has_math s.content
  let s0 := { s with has_math := hm }
  if hm = false then
    { s0 with scores := dictSet s0.scores "math" 10,
              feedback := dictSet s0.feedback "math"
                (Judgment.mk 10 "No mathematical content to validate" 0 "N/A" 0 0) }
  else runStage "math" res s0

/-- `validate_depth` (app/validators/depth.py). -/
def validate_depth (res : Option Judgment) (s : ArticleState) : ArticleState :=
  runStage "depth" res s

/-- `validate_readability` (app/validators/readability.py): additionally
stores the readability indices into the metadata. -/
def validate_readability (res : Option Judgment) (s : ArticleState) : ArticleState :=
  match res with
  | none => { s with status := "error", error := some ("readability validation error") }
  | some j =>
    let s1 := { s with scores := dictSet s.scores "readability" j.score,
                       feedback := dictSet s.feedback "readability" j }
    let md := dictSet (dictSet s1.metadata "flesch_reading_ease" (MetaVal.num j.flesch_reading_ease))
      "gunning_fog_index" (MetaVal.num j.gunning_fog_index)
    let s2 := { s1 with metadata := md }
    if j.score < MIN_SCORE_THRESHOLD then
      let rc := dictGetD s2.retry_counts "readability" 0 + 1
      let s3 := { s2 with failed_nodes := s2.failed_nodes ++ ["readability"],
                          retry_counts := dictSet s2.retry_counts "readability" rc }
      if MAX_RETRIES ≤ rc then
        { s3 with status := "failed",
                  error := some ("readability validation failed after max retries") }
      else s3
    else s2

/-- `validate_code` (app/validators/code.py): records the `has_code` flag,
and when the content has no fenced code block, writes a perfect score and a
fixed not-applicable feedback without consulting the adapter. -/
def validate_code (res : Option Judgment) (s : ArticleState) : ArticleState :=
  let hc := check_has_code s.content
  let s0 := { s with has_code := hc }
  if hc = false then
    { s0 with scores := dictSet s0.scores "code" 10,
              feedback := dictSet s0.feedback "code"
                (Judgment.mk 10 "No code blocks to validate" 0 "N/A" 0 0) }
  else runStage "code" res s0

/-! ## Decision policy and workflow nodes (app/agents/graph.py) -/

/-- The overall score computed in `should_regenerate` and `finalize_node`:
the mean of the stored scores, `0.0` when there are none. -/
def mean_scores (scores : List (String × ℚ)) : ℚ :=
  if scores.isEmpty then 0 else (scores.map (fun p => p.2)).sum / scores.length

/-- `min(d, key=d.get)` on a Python dict: the first key holding the
minimal value (a later entry replaces the running minimum only when its
value is strictly smaller). -/
def dictArgmin (d : List (String × ℚ)) : Option String :=
  match d with
  | [] => none
  | p :: rest =>
    some ((rest.foldl (fun acc q => if q.2 < acc.2 then q else acc) p).1)

/-- `ArticleWorkflow.should_regenerate`: the routing decision together with
the (possibly mutated) state — the second branch appends the lowest-scoring
stage to `failed_nodes` in place. -/
def should_regenerate (s : ArticleState) : String × ArticleState :=
  if s.failed_nodes.isEmpty = false then
    if s.failed_nodes.any (fun node => MAX_RETRIES ≤ dictGetD s.retry_counts node 0) then
      ("finalize", s)
    else
      ("regenerate", s)
  else
    let overall_score := mean_scores s.scores
    if overall_score < PUBLISH_THRESHOLD then
      match dictArgmin s.scores with
      | some lowest_node =>
        if dictGetD s.scores lowest_node 0 < MIN_SCORE_THRESHOLD then
          ("regenerate", { s with failed_nodes := s.failed_nodes ++ [lowest_node] })
        else ("finalize", s)
      | none => ("finalize", s)
    else ("finalize", s)

/-- Models the title extraction in `generate_node`
(`re.search` of a leading-heading pattern with MULTILINE): the first line
that starts with a hash followed by at least one space or tab and a
nonempty remainder yields that remainder as the title.  Whitespace runs
crossing line boundaries, which the original pattern can also match, are
not exercised by any claim. -/
def headingTitle (l : List Char) : Option String :=
  match l with
  | '#' :: c :: rest =>
    if c = ' ' ∨ c = '\t' then
      let t := rest.dropWhile (fun ch => ch = ' ' ∨ ch = '\t')
      if t.isEmpty then none else some (String.mk t)
    else none
  | _ => none

/-- First heading title in the content, if any. -/
def extract_title (content : String) : Option String :=
  ((splitLines content.toList).filterMap headingTitle).head?

/-- `ArticleWorkflow.generate_node`: `res` is the adapter's generated text
(`none` when `generator.generate_article` raises).  On success the node
stores the content, extracts a title, and persists one version and one
checkpoint. -/
def generate_node (res : Option String) (s : ArticleState) : ArticleState × List DbEvent :=
  let s0 := { s with current_node := "generate" }
  match res with
  | none => ({ s0 with status := "error", error := some "generation error" }, [])
  | some text =>
    let s1 := { s0 with content := text }
    let s2 := match extract_title text with
              | some t => { s1 with title := t }
              | none => s1
    (s2, [DbEvent.createVersion s.article_id "generate",
          DbEvent.saveCheckpoint s.article_id "generate"])

/-- `ArticleWorkflow.regenerate_node`: the iteration counter is bumped
before the adapter call; on success the content is replaced, `failed_nodes`
is cleared, and one version and one checkpoint are persisted.  When
`generator.regenerate_content` raises (`res = none`) the node records the
error and returns with `failed_nodes` intact. -/
def regenerate_node (res : Option String) (s : ArticleState) : ArticleState × List DbEvent :=
  let s0 := { s with current_node := "regenerate", iteration := s.iteration + 1 }
  match res with
  | none => ({ s0 with status := "error", error := some "regeneration error" }, [])
  | some text =>
    let s1 := { s0 with content := text, failed_nodes := [] }
    (s1, [DbEvent.createVersion s.article_id "regenerate",
          DbEvent.saveCheckpoint s.article_id "regenerate"])

/-- `ArticleWorkflow.finalize_node` on its success path (equation rendering
and the database update are the only failure sources and are modelled as
succeeding): process equations when `has_math` is set, store the mean score,
persist the article as completed, and set `status = "completed"`
unconditionally. -/
def finalize_node (s : ArticleState) : ArticleState × List DbEvent :=
  let s0 := { s with current_node := "finalize" }
  let content1 :=
    if s0.has_math then (process_article_equations s0.content s0.article_id).1 else s0.content
  let overall := mean_scores s0.scores
  let s1 := { s0 with content := content1, overall_score := overall, status := "completed" }
  (s1, [DbEvent.updateArticle s0.article_id "completed"])

/-- The successor function of the compiled graph in
`ArticleWorkflow._build_workflow`: every edge between stages is
unconditional; only the edge out of `validate_code` consults
`should_regenerate`.  `none` is the END node. -/
def next_node (current : String) (s : ArticleState) : Option String :=
  match current with
  | "generate" => some "validate_structure"
  | "validate_structure" => some "validate_language"
  | "validate_language" => some "validate_grammar"
  | "validate_grammar" => some "validate_length"
  | "validate_length" => some "validate_math"
  | "validate_math" => some "validate_depth"
  | "validate_depth" => some "validate_readability"
  | "validate_readability" => some "validate_code"
  | "validate_code" =>
    if (should_regenerate s).1 = "regenerate" then some "regenerate" else some "finalize"
  | "regenerate" => some "validate_structure"
  | "finalize" => none
  | _ => none

/-! ## Run steps

A run of the workflow is a sequence of node executions in the order the
graph dictates; each step carries the adapter's reply for that node. -/

/-- One node execution of a run. -/
inductive Step : Type
  | generate (res : Option String)
  | stage (name : String) (res : Option Judgment)
  | decide
  | regenerate (res : Option String)
  | finalize
  deriving Repr, DecidableEq

/-- Dispatch a stage step to the validator with the given name
(the fixed sequential order of `_build_workflow` is
structure, language, grammar, length, math, depth, readability, code). -/
def runStageByName (name : String) (res : Option Judgment) (s : ArticleState) : ArticleState :=
  match name with
  | "structure" => validate_structure res s
  | "language" => validate_language res s
  | "grammar" => validate_grammar res s
  | "length" => validate_length res s
  | "math" => validate_math res s
  | "depth" => validate_depth res s
  | "readability" => validate_readability res s
  | "code" => validate_code res s
  | _ => s

/-- The state transformation of one step. -/
def stepRun (s : ArticleState) : Step → ArticleState
  | Step.generate res => (generate_node res s).1
  | Step.stage name res => runStageByName name res s
  | Step.decide => (should_regenerate s).2
  | Step.regenerate res => (regenerate_node res s).1
  | Step.finalize => (finalize_node s).1

/-- Run a sequence of steps. -/
def runSteps (s : ArticleState) (steps : List Step) : ArticleState :=
  steps.foldl stepRun s

/-! ## Version numbering (app/database/operations.py, create_version) -/

/-- One row of the `article_versions` table: owning article and assigned
version number (the remaining columns play no role in the claims). -/
structure VersionRow : Type where
  article_id : String
  version_number : Nat
  deriving Repr, DecidableEq

/-- `DatabaseOperations.create_version`: count the rows already stored for
the article and append a row numbered one higher. -/
def create_version (db : List VersionRow) (article_id : String) : List VersionRow :=
  let version_count := (db.filter (fun r => r.article_id = article_id)).length
  db ++ [VersionRow.mk article_id (version_count + 1)]

/-- The database reached from empty by a sequence of `create_version`
calls, given as the list of article ids in call order. -/
def applyCreates (calls : List String) : List VersionRow :=
  calls.foldl create_version []

/-- The version numbers stored for one article, in row order. -/
def versionsOf (db : List VersionRow) (article_id : String) : List Nat :=
  (db.filter (fun r => r.article_id = article_id)).map (fun r => r.version_number)

/-- Number of `createVersion` events in an event list. -/
def countCreateVersion (events : List DbEvent) : Nat :=
  (events.filter (fun e => match e with
    | DbEvent.createVersion _ _ => true
    | _ => false)).length

/-! ## Queue (app/database/operations.py, add_to_queue / update_queue_status) -/

/-- One row of the `article_queue` table (timestamps omitted: the claims
concern position and status only). -/
structure QueueRow : Type where
  session_id : String
  position : Nat
  status : String
  deriving Repr, DecidableEq

/-- `DatabaseOperations.add_to_queue`: the new row's position is the count
of rows currently in status queued, plus one; returns the updated table and
the assigned position. -/
def add_to_queue (db : List QueueRow) (session_id : String) : List QueueRow × Nat :=
  let position := (db.filter (fun r => r.status = "queued")).length + 1
  (db ++ [QueueRow.mk session_id position "queued"], position)

/-- `DatabaseOperations.update_queue_status`: set the status of the first
row with the given session id; positions are not touched. -/
def update_queue_status : List QueueRow → String → String → List QueueRow
  | [], _, _ => []
  | r :: rest, session_id, status =>
    if r.session_id = session_id then { r with status := status } :: rest
    else r :: update_queue_status rest session_id status

/-! ## Time travel (app/api/routes.py, time_travel) -/

/-- The override loop of the `time_travel` endpoint: each entry of the
modifications mapping is written into the checkpoint state only when its
key already exists there. -/
def apply_modifications {α : Type} (state mods : List (String × α)) : List (String × α) :=
  mods.foldl (fun st kv => if dictMem st kv.1 then dictSet st kv.1 kv.2 else st) state

/-- The state the `time_travel` endpoint hands to the workflow: the loaded
checkpoint state with the overrides applied and `article_id` replaced by
the freshly generated id. -/
def time_travel_state {α : Type} (state mods : List (String × α)) (new_article_id : α) :
    List (String × α) :=
  dictSet (apply_modifications state mods) "article_id" new_article_id

/-! ## Spec-side decision policy (what the specification text describes)

These definitions follow the wording of the specification, to be compared
with `should_regenerate`, which is translated from the code. -/

/-- The arithmetic mean of a list of values, `0` for the empty list. -/
def arithMean (l : List ℚ) : ℚ :=
  if l = [] then 0 else l.sum / l.length

/-- The single lowest-scoring stage, first encountered on ties: the first
key whose value equals the minimum of all stored values. -/
def lowestScoringStage (scores : List (String × ℚ)) : Option String :=
  match scores with
  | [] => none
  | p :: rest =>
    let m := (rest.map (fun q => q.2)).foldl min p.2
    ((p :: rest).find? (fun q => q.2 = m)).map (fun q => q.1)

/-- The routing decision as the specification words it: with failures
present, finalize exactly when some failed node's retry counter has reached
`MAX_RETRIES`; otherwise compare the mean score against
`PUBLISH_THRESHOLD`, and below it regenerate exactly when the lowest-scoring
stage sits below `MIN_SCORE_THRESHOLD`. -/
def decisionSpec (s : ArticleState) : String :=
  if s.failed_nodes ≠ [] then
    if ∃ node ∈ s.failed_nodes, MAX_RETRIES ≤ dictGetD s.retry_counts node 0 then
      "finalize"
    else "regenerate"
  else
    let overall := arithMean (s.scores.map (fun p => p.2))
    if PUBLISH_THRESHOLD ≤ overall then "finalize"
    else
      match lowestScoringStage s.scores with
      | some v => if dictGetD s.scores v 0 < MIN_SCORE_THRESHOLD then "regenerate" else "finalize"
      | none => "finalize"

/-! ## Counting failed-node appearances along a run -/

/-- The retry counter of validator `v` (`state["retry_counts"].get(v, 0)`). -/
def retryOf (s : ArticleState) (v : String) : Nat :=
  dictGetD s.retry_counts v 0

/-- How many times `v` was appended to `failed_nodes` by one step, read off
from the lists before and after: every step either extends the list at the
end or clears it (a cleared list contributes nothing new). -/
def appendsIn (v : String) (oldL newL : List String) : Nat :=
  if oldL.isPrefixOf newL then (newL.drop oldL.length).count v else newL.count v

/-- Total number of times `v` is appended to any `failed_nodes` list along
a run — validator-stage appends and decision-policy appends alike. -/
def appearancesFrom (v : String) (s : ArticleState) : List Step → Nat
  | [] => 0
  | st :: rest =>
    appendsIn v s.failed_nodes (stepRun s st).failed_nodes +
      appearancesFrom v (stepRun s st) rest

/-- Number of times `v` is appended to `failed_nodes` by validator stages
only (decision-policy appends excluded). -/
def stageAppearancesFrom (v : String) (s : ArticleState) : List Step → Nat
  | [] => 0
  | st :: rest =>
    (match st with
     | Step.decide => 0
     | _ => appendsIn v s.failed_nodes (stepRun s st).failed_nodes) +
      stageAppearancesFrom v (stepRun s st) rest

/-! ## Concrete states and traces used in the instances -/

/-- Read a string value from a requirements mapping with a default
(`requirements.get(k, default)` in app/api/routes.py). -/
def metaStrD (d : List (String × MetaVal)) (k : String) (dflt : String) : String :=
  match dictGet d k with
  | some (MetaVal.str v) => v
  | _ => dflt

/-- The initial `ArticleState` built by the generate-article endpoint
(app/api/routes.py, lines 119-145). -/
def initialState (session_id article_id : String)
    (requirements : List (String × MetaVal)) : ArticleState :=
  { session_id := session_id
    article_id := article_id
    topic := metaStrD requirements "topic" ""
    author := metaStrD requirements "author" ""
    target_audience := metaStrD requirements "target_audience" "mixed"
    article_type := metaStrD requirements "article_type" "educational"
    tone := metaStrD requirements "tone" "conversational"
    requirements := requirements
    content := ""
    title := ""
    metadata := requirements
    scores := []
    overall_score := 0
    feedback := []
    retry_counts := []
    needs_regeneration := false
    failed_nodes := []
    current_node := ""
    iteration := 0
    has_code := false
    has_math := false
    status := "processing"
    error := none
    started_at := 0
    updated_at := 0 }

/-- A judgment carrying just a score (the other fields at their defaults). -/
def jScore (q : ℚ) : Judgment :=
  Judgment.mk q "feedback" 0 "N/A" 0 0

/-- The initial state of the concrete runs below. -/
def cInit : ArticleState := initialState "s1" "a1" []

/-- First validator pass of the concrete run: every stage is judged 8.0
except grammar, judged 6.0 (math and code are gated to 10.0 since the
generated content has no equations and no code fences). -/
def passOne : List Step :=
  [Step.stage "structure" (some (jScore 8)), Step.stage "language" (some (jScore 8)),
   Step.stage "grammar" (some (jScore 6)), Step.stage "length" (some (jScore 8)),
   Step.stage "math" (some (jScore 8)), Step.stage "depth" (some (jScore 8)),
   Step.stage "readability" (some (jScore 8)), Step.stage "code" (some (jScore 8))]

/-- Second validator pass: identical, except that the grammar stage's
adapter call raises, so grammar neither rescores nor re-appends and its
stale 6.0 survives in `scores`. -/
def passTwo : List Step :=
  [Step.stage "structure" (some (jScore 8)), Step.stage "language" (some (jScore 8)),
   Step.stage "grammar" none, Step.stage "length" (some (jScore 8)),
   Step.stage "math" (some (jScore 8)), Step.stage "depth" (some (jScore 8)),
   Step.stage "readability" (some (jScore 8)), Step.stage "code" (some (jScore 8))]

/-- A full controller-ordered run: generate, pass one, decision
(regenerate), regeneration, pass two, decision. -/
def cTrace : List Step :=
  Step.generate (some "hello world") ::
    (passOne ++ (Step.decide :: Step.regenerate (some "hello again") ::
      (passTwo ++ [Step.decide])))

/-- A state on which the decision policy appends to `failed_nodes` a stage
whose retry counter has already reached `MAX_RETRIES`. -/
def sIdem : ArticleState :=
  { cInit with scores := [("grammar", 6)], retry_counts := [("grammar", 5)] }

/-- A retry-exhausted state as a validator stage leaves it: grammar scored
below threshold for the fifth time, so the stage set `status = "failed"`. -/
def sFailed : ArticleState :=
  { cInit with
      content := "best effort draft"
      scores := [("structure", 8), ("language", 8), ("grammar", 5), ("length", 8),
                 ("math", 10), ("depth", 8), ("readability", 8), ("code", 10)]
      feedback := [("grammar", jScore 5)]
      retry_counts := [("grammar", 5)]
      failed_nodes := ["grammar"]
      status := "failed"
      error := some "grammar validation failed after max retries" }

/-- A state whose `has_math` flag is set although the current content has
no equation span (reachable when a regeneration dropped the equations). -/
def sMathFlag : ArticleState :=
  { cInit with has_math := true, content := "no dollar signs here" }

/-- All eight scores equal to 8.0, no failed nodes. -/
def sEights : ArticleState :=
  { cInit with
      scores := [("structure", 8), ("language", 8), ("grammar", 8), ("length", 8),
                 ("math", 8), ("depth", 8), ("readability", 8), ("code", 8)] }

/-! ## Dictionary lemmas -/

theorem dictMem_iff_isSome {α : Type} (d : List (String × α)) (k : String) :
    dictMem d k = (dictGet d k).isSome := by
  induction d with
  | nil => rfl
  | cons p rest ih =>
    by_cases h : p.1 = k
    · simp [dictMem, dictGet, List.find?_cons, h]
    · simp only [dictMem, dictGet] at ih ⊢
      simp [List.any_cons, List.find?_cons, h, ih]

theorem dictGet_dictSet_self {α : Type} (d : List (String × α)) (k : String) (v : α) :
    dictGet (dictSet d k v) k = some v := by
  unfold dictSet
  by_cases hm : dictMem d k = true
  · simp only [hm, if_true]
    induction d with
    | nil => simp [dictMem] at hm
    | cons p rest ih =>
      by_cases h : p.1 = k
      · simp [dictGet, List.find?_cons, h]
      · have hm' : dictMem rest k = true := by
          simpa [dictMem, List.any_cons, h] using hm
        simpa [dictGet, List.find?_cons, h] using ih hm'
  · simp only [hm, if_false]
    have hget : dictGet d k = none := by
      have h1 := dictMem_iff_isSome d k
      rw [Bool.not_eq_true] at hm
      rw [hm] at h1
      cases hdg : dictGet d k with
      | none => rfl
      | some x => rw [hdg] at h1; simp at h1
    have hfind : d.find? (fun p => decide (p.1 = k)) = none := by
      unfold dictGet at hget
      exact Option.map_eq_none.mp hget
    simp [dictGet, List.find?_append, hfind]

theorem find?_map_keyupdate {α : Type} (d : List (String × α)) (k k' : String) (v : α)
    (h : ¬(k = k')) :
    (d.map (fun p => if p.1 = k then (k, v) else p)).find? (fun p => decide (p.1 = k')) =
      d.find? (fun p => decide (p.1 = k')) := by
  induction d with
  | nil => rfl
  | cons p rest ih =>
    simp only [List.map_cons]
    by_cases hp : p.1 = k
    · rw [if_pos hp]
      have h1 : (decide (((k, v) : String × α).1 = k')) = false := by simp [h]
      have h2 : (decide (p.1 = k')) = false := by simp [hp, h]
      simp only [List.find?, h1, h2, ih]
    · rw [if_neg hp]
      by_cases hpk' : p.1 = k'
      · have h1 : (decide (p.1 = k')) = true := by simp [hpk']
        simp only [List.find?, h1]
      · have h1 : (decide (p.1 = k')) = false := by simp [hpk']
        simp only [List.find?, h1, ih]

theorem dictGet_dictSet_ne {α : Type} (d : List (String × α)) (k k' : String) (v : α)
    (h : k' ≠ k) : dictGet (dictSet d k v) k' = dictGet d k' := by
  have hk : ¬((k : String) = k') := fun hkk => h hkk.symm
  unfold dictSet
  by_cases hm : dictMem d k = true
  · simp only [hm, if_true, dictGet, find?_map_keyupdate d k k' v hk]
  · rw [Bool.not_eq_true] at hm
    have hone : List.find? (fun p => decide (p.1 = k')) [(k, v)] = none := by
      simp [List.find?_cons, hk]
    unfold dictGet
    rw [if_neg (by simp [hm]), List.find?_append, hone]
    cases hfd : d.find? (fun p => decide (p.1 = k')) <;> simp

theorem dictGetD_dictSet_self {α : Type} (d : List (String × α)) (k : String) (v dflt : α) :
    dictGetD (dictSet d k v) k dflt = v := by
  unfold dictGetD
  rw [dictGet_dictSet_self]
  rfl

theorem dictGetD_dictSet_ne {α : Type} (d : List (String × α)) (k k' : String) (v dflt : α)
    (h : k' ≠ k) : dictGetD (dictSet d k v) k' dflt = dictGetD d k' dflt := by
  unfold dictGetD
  rw [dictGet_dictSet_ne d k k' v h]

theorem apply_modifications_absent {α : Type} (mods : List (String × α))
    (state : List (String × α)) (k : String) (h : dictGet state k = none) :
    dictGet (apply_modifications state mods) k = none := by
  induction mods generalizing state with
  | nil => exact h
  | cons kv rest ih =>
    unfold apply_modifications
    simp only [List.foldl_cons]
    by_cases hmem : dictMem state kv.1 = true
    · by_cases hk : kv.1 = k
      · exfalso
        rw [dictMem_iff_isSome, hk, h] at hmem
        simp at hmem
      · have h2 : dictGet (dictSet state kv.1 kv.2) k = none := by
          rw [dictGet_dictSet_ne state kv.1 k kv.2 (fun hh => hk hh.symm)]
          exact h
        simpa [apply_modifications, hmem] using ih (dictSet state kv.1 kv.2) h2
    · rw [Bool.not_eq_true] at hmem
      simpa [apply_modifications, hmem] using ih state h

theorem apply_modifications_frame {α : Type} (mods : List (String × α))
    (state : List (String × α)) (k : String) (h : ∀ kv ∈ mods, kv.1 ≠ k) :
    dictGet (apply_modifications state mods) k = dictGet state k := by
  induction mods generalizing state with
  | nil => rfl
  | cons kv rest ih =>
    unfold apply_modifications
    simp only [List.foldl_cons]
    have hk : kv.1 ≠ k := h kv (by simp)
    have hrest : ∀ kv ∈ rest, kv.1 ≠ k := fun q hq => h q (by simp [hq])
    by_cases hmem : dictMem state kv.1 = true
    ·
      have step : dictGet (apply_modifications (dictSet state kv.1 kv.2) rest) k =
          dictGet (dictSet state kv.1 kv.2) k := ih (dictSet state kv.1 kv.2) hrest
      simp only [apply_modifications] at step
      simp only [hmem, if_true]
      rw [step, dictGet_dictSet_ne state kv.1 k kv.2 (fun hh => hk hh.symm)]
    · rw [Bool.not_eq_true] at hmem
      have step := ih state hrest
      simp only [apply_modifications] at step
      simp only [hmem, Bool.false_eq_true, if_false]
      exact step

/-! ## Lemmas about the lowest-scoring stage -/

theorem foldl_min_le_init (l : List ℚ) (a : ℚ) : l.foldl min a ≤ a := by
  induction l generalizing a with
  | nil => simp
  | cons x xs ih =>
    simp only [List.foldl_cons]
    exact le_trans (ih (min a x)) (min_le_left a x)

theorem foldl_pairmin_snd (rest : List (String × ℚ)) (p : String × ℚ) :
    (rest.foldl (fun acc q => if q.2 < acc.2 then q else acc) p).2 =
      (rest.map (fun q => q.2)).foldl min p.2 := by
  induction rest generalizing p with
  | nil => rfl
  | cons r rs ih =>
    simp only [List.foldl_cons, List.map_cons]
    rw [ih]
    congr 1
    by_cases h : r.2 < p.2
    · simp [h, min_eq_right (le_of_lt h)]
    · simp [h, min_eq_left (le_of_not_lt h)]

theorem find?_cons_pos {α : Type} (pr : α → Bool) (a : α) (l : List α) (h : pr a = true) :
    List.find? pr (a :: l) = some a :=
  List.find?_cons_of_pos l h

theorem find?_cons_neg {α : Type} (pr : α → Bool) (a : α) (l : List α) (h : pr a = false) :
    List.find? pr (a :: l) = List.find? pr l :=
  List.find?_cons_of_neg l (by simp [h])

theorem find?_min_first (rest : List (String × ℚ)) (p : String × ℚ) :
    ((p :: rest).find? (fun q => decide (q.2 = (rest.map (fun q => q.2)).foldl min p.2))) =
      some (rest.foldl (fun acc q => if q.2 < acc.2 then q else acc) p) := by
  induction rest generalizing p with
  | nil => simp [List.find?]
  | cons r rs ih =>
    by_cases h : r.2 < p.2
    · have hM : ((r :: rs).map (fun q => q.2)).foldl min p.2 =
          (rs.map (fun q => q.2)).foldl min r.2 := by
        simp only [List.map_cons, List.foldl_cons]
        rw [min_eq_right (le_of_lt h)]
      have hfold : (r :: rs).foldl (fun acc q => if q.2 < acc.2 then q else acc) p =
          rs.foldl (fun acc q => if q.2 < acc.2 then q else acc) r := by
        simp only [List.foldl_cons, if_pos h]
      have hlt : (rs.map (fun q => q.2)).foldl min r.2 < p.2 :=
        lt_of_le_of_lt (foldl_min_le_init _ _) h
      have hPp : (fun (q : String × ℚ) =>
          decide (q.2 = ((r :: rs).map (fun q => q.2)).foldl min p.2)) p = false := by
        simp only [hM, decide_eq_false_iff_not]
        exact fun hh => absurd hh (ne_of_gt hlt)
      rw [find?_cons_neg _ p (r :: rs) hPp, hfold]
      simp only [hM]
      exact ih r
    · have hmin : min p.2 r.2 = p.2 := min_eq_left (le_of_not_lt h)
      have hM : ((r :: rs).map (fun q => q.2)).foldl min p.2 =
          (rs.map (fun q => q.2)).foldl min p.2 := by
        simp only [List.map_cons, List.foldl_cons]
        rw [hmin]
      have hfold : (r :: rs).foldl (fun acc q => if q.2 < acc.2 then q else acc) p =
          rs.foldl (fun acc q => if q.2 < acc.2 then q else acc) p := by
        simp only [List.foldl_cons, if_neg h]
      rw [hfold]
      simp only [hM]
      have ihp := ih p
      by_cases hP : p.2 = (rs.map (fun q => q.2)).foldl min p.2
      · have hPp : (fun (q : String × ℚ) =>
            decide (q.2 = (rs.map (fun q => q.2)).foldl min p.2)) p = true := by
          simpa using hP
        rw [find?_cons_pos _ p rs hPp] at ihp
        rw [find?_cons_pos _ p (r :: rs) hPp]
        exact ihp
      · have hPp : (fun (q : String × ℚ) =>
            decide (q.2 = (rs.map (fun q => q.2)).foldl min p.2)) p = false := by
          simpa using hP
        rw [find?_cons_neg _ p rs hPp] at ihp
        have hle : (rs.map (fun q => q.2)).foldl min p.2 ≤ p.2 := foldl_min_le_init _ _
        have hltp : (rs.map (fun q => q.2)).foldl min p.2 < p.2 :=
          lt_of_le_of_ne hle (fun hh => hP hh.symm)
        have hPr : (fun (q : String × ℚ) =>
            decide (q.2 = (rs.map (fun q => q.2)).foldl min p.2)) r = false := by
          simp only [decide_eq_false_iff_not]
          exact fun hh =>
            absurd hh (ne_of_gt (lt_of_lt_of_le hltp (le_of_not_lt h)))
        rw [find?_cons_neg _ p (r :: rs) hPp, find?_cons_neg _ r rs hPr]
        exact ihp

theorem dictArgmin_eq_lowestScoringStage (d : List (String × ℚ)) :
    dictArgmin d = lowestScoringStage d := by
  cases d with
  | nil => rfl
  | cons p rest =>
    show some ((rest.foldl (fun acc q => if q.2 < acc.2 then q else acc) p).1) =
      ((p :: rest).find? (fun q =>
        decide (q.2 = (rest.map (fun q => q.2)).foldl min p.2))).map (fun q => q.1)
    rw [find?_min_first rest p]
    rfl

theorem mean_scores_eq_arithMean (d : List (String × ℚ)) :
    mean_scores d = arithMean (d.map (fun p => p.2)) := by
  unfold mean_scores arithMean
  cases d <;> simp

theorem should_regenerate_routes_as_spec (s : ArticleState) :
    (should_regenerate s).1 = decisionSpec s := by
  by_cases hfe : s.failed_nodes = []
  · by_cases hlt : mean_scores s.scores < PUBLISH_THRESHOLD
    · have hnle : ¬ PUBLISH_THRESHOLD ≤ arithMean (s.scores.map (fun p => p.2)) := by
        rw [← mean_scores_eq_arithMean]; exact not_le.mpr hlt
      cases hlsw : lowestScoringStage s.scores with
      | none =>
        have hda : dictArgmin s.scores = none := by
          rw [dictArgmin_eq_lowestScoringStage]; exact hlsw
        simp [should_regenerate, decisionSpec, hfe, hlt, hnle, hda, hlsw]
      | some v =>
        have hda : dictArgmin s.scores = some v := by
          rw [dictArgmin_eq_lowestScoringStage]; exact hlsw
        by_cases hv : dictGetD s.scores v 0 < MIN_SCORE_THRESHOLD <;>
          simp [should_regenerate, decisionSpec, hfe, hlt, hnle, hda, hlsw, hv]
    · have hle : PUBLISH_THRESHOLD ≤ arithMean (s.scores.map (fun p => p.2)) := by
        rw [← mean_scores_eq_arithMean]; exact not_lt.mp hlt
      simp [should_regenerate, decisionSpec, hfe, hlt, hle]
  · by_cases hany : s.failed_nodes.any
        (fun node => decide (MAX_RETRIES ≤ dictGetD s.retry_counts node 0)) = true
    · have hex : ∃ node ∈ s.failed_nodes, MAX_RETRIES ≤ dictGetD s.retry_counts node 0 := by
        simpa [List.any_eq_true] using hany
      simp [should_regenerate, decisionSpec, List.isEmpty_iff, hfe, hany, hex]
    · have hex : ¬ ∃ node ∈ s.failed_nodes, MAX_RETRIES ≤ dictGetD s.retry_counts node 0 := by
        simpa [List.any_eq_true] using hany
      simp [should_regenerate, decisionSpec, List.isEmpty_iff, hfe, hany, hex]

theorem should_regenerate_cases (s : ArticleState) :
    (should_regenerate s).2 = s ∨
      ∃ v, lowestScoringStage s.scores = some v ∧
        dictGetD s.scores v 0 < MIN_SCORE_THRESHOLD ∧ s.failed_nodes = [] ∧
        should_regenerate s =
          ("regenerate", { s with failed_nodes := s.failed_nodes ++ [v] }) := by
  by_cases hfe : s.failed_nodes = []
  · by_cases hlt : mean_scores s.scores < PUBLISH_THRESHOLD
    · cases hda : dictArgmin s.scores with
      | none => left; simp [should_regenerate, hfe, hlt, hda]
      | some v =>
        by_cases hv : dictGetD s.scores v 0 < MIN_SCORE_THRESHOLD
        · right
          refine ⟨v, ?_, hv, hfe, ?_⟩
          · rw [← dictArgmin_eq_lowestScoringStage]; exact hda
          · simp [should_regenerate, hfe, hlt, hda, hv]
        · left; simp [should_regenerate, hfe, hlt, hda, hv]
    · left; simp [should_regenerate, hfe, hlt]
  · left
    by_cases hany : s.failed_nodes.any
        (fun node => decide (MAX_RETRIES ≤ dictGetD s.retry_counts node 0)) = true
    · simp [should_regenerate, List.isEmpty_iff, hfe, hany]
    · simp [should_regenerate, List.isEmpty_iff, hfe, hany]

theorem should_regenerate_snd_scores (s : ArticleState) :
    (should_regenerate s).2.scores = s.scores := by
  rcases should_regenerate_cases s with h | ⟨v, h1, h2, h3, h4⟩
  · rw [h]
  · rw [h4]

theorem should_regenerate_snd_retry_counts (s : ArticleState) :
    (should_regenerate s).2.retry_counts = s.retry_counts := by
  rcases should_regenerate_cases s with h | ⟨v, h1, h2, h3, h4⟩
  · rw [h]
  · rw [h4]

/-! ## Per-step accounting lemmas for retry counters -/

theorem appendsIn_self (v : String) (l : List String) : appendsIn v l l = 0 := by
  unfold appendsIn
  rw [if_pos (List.isPrefixOf_iff_prefix.mpr (List.prefix_refl l)), List.drop_length,
    List.count_nil]

theorem appendsIn_append (v n : String) (l : List String) :
    appendsIn v l (l ++ [n]) = if n = v then 1 else 0 := by
  unfold appendsIn
  rw [if_pos (List.isPrefixOf_iff_prefix.mpr (List.prefix_append l [n])), List.drop_left,
    List.count_singleton]
  by_cases h : n = v <;> simp [h]

theorem appendsIn_nil_right (v : String) (l : List String) : appendsIn v l [] = 0 := by
  cases l <;> simp [appendsIn, List.isPrefixOf, List.drop_length, List.count_nil]

theorem applyJudgment_retry (name : String) (j : Judgment) (s : ArticleState) (v : String) :
    retryOf (applyJudgment name j s) v =
      retryOf s v +
        appendsIn v s.failed_nodes (applyJudgment name j s).failed_nodes := by
  unfold applyJudgment retryOf
  by_cases hlt : j.score < MIN_SCORE_THRESHOLD
  · simp only [hlt, if_true]
    by_cases hmax : MAX_RETRIES ≤ dictGetD s.retry_counts name 0 + 1
    · simp only [hmax, if_true, appendsIn_append]
      by_cases hv : name = v
      · subst hv; rw [dictGetD_dictSet_self]; simp
      · rw [dictGetD_dictSet_ne _ _ _ _ _ (fun hh => hv hh.symm)]; simp [hv]
    · simp only [hmax, if_false, appendsIn_append]
      by_cases hv : name = v
      · subst hv; rw [dictGetD_dictSet_self]; simp
      · rw [dictGetD_dictSet_ne _ _ _ _ _ (fun hh => hv hh.symm)]; simp [hv]
  · simp only [hlt, if_false, appendsIn_self]
    rfl

theorem runStage_retry (name : String) (res : Option Judgment) (s : ArticleState) (v : String) :
    retryOf (runStage name res s) v =
      retryOf s v + appendsIn v s.failed_nodes (runStage name res s).failed_nodes := by
  cases res with
  | none => simp [runStage, retryOf, appendsIn_self]
  | some j => exact applyJudgment_retry name j s v

theorem validate_length_retry (res : Option Judgment) (s : ArticleState) (v : String) :
    retryOf (validate_length res s) v =
      retryOf s v + appendsIn v s.failed_nodes (validate_length res s).failed_nodes := by
  cases res with
  | none => simp [validate_length, retryOf, appendsIn_self]
  | some j =>
    by_cases hlt : j.score < MIN_SCORE_THRESHOLD
    · by_cases hv : ("length" : String) = v
      · subst hv
        by_cases hmax : MAX_RETRIES ≤ dictGetD s.retry_counts "length" 0 + 1 <;>
          simp [validate_length, retryOf, hlt, hmax, appendsIn_append, dictGetD_dictSet_self]
      · by_cases hmax : MAX_RETRIES ≤ dictGetD s.retry_counts "length" 0 + 1 <;>
          simp [validate_length, retryOf, hlt, hmax, appendsIn_append, hv,
            dictGetD_dictSet_ne _ _ _ _ _ (fun hh => hv hh.symm)]
    · simp [validate_length, retryOf, hlt, appendsIn_self]

theorem validate_readability_retry (res : Option Judgment) (s : ArticleState) (v : String) :
    retryOf (validate_readability res s) v =
      retryOf s v + appendsIn v s.failed_nodes (validate_readability res s).failed_nodes := by
  cases res with
  | none => simp [validate_readability, retryOf, appendsIn_self]
  | some j =>
    by_cases hlt : j.score < MIN_SCORE_THRESHOLD
    · by_cases hv : ("readability" : String) = v
      · subst hv
        by_cases hmax : MAX_RETRIES ≤ dictGetD s.retry_counts "readability" 0 + 1 <;>
          simp [validate_readability, retryOf, hlt, hmax, appendsIn_append,
            dictGetD_dictSet_self]
      · by_cases hmax : MAX_RETRIES ≤ dictGetD s.retry_counts "readability" 0 + 1 <;>
          simp [validate_readability, retryOf, hlt, hmax, appendsIn_append, hv,
            dictGetD_dictSet_ne _ _ _ _ _ (fun hh => hv hh.symm)]
    · simp [validate_readability, retryOf, hlt, appendsIn_self]

theorem validate_math_retry (res : Option Judgment) (s : ArticleState) (v : String) :
    retryOf (validate_math res s) v =
      retryOf s v + appendsIn v s.failed_nodes (validate_math res s).failed_nodes := by
  by_cases hm : check_has_math s.content = false
  · simp [validate_math, hm, retryOf, appendsIn_self]
  · have h := runStage_retry "math" res { s with has_math := check_has_math s.content } v
    simpa [validate_math, hm, retryOf] using h

theorem validate_code_retry (res : Option Judgment) (s : ArticleState) (v : String) :
    retryOf (validate_code res s) v =
      retryOf s v + appendsIn v s.failed_nodes (validate_code res s).failed_nodes := by
  by_cases hc : check_has_code s.content = false
  · simp [validate_code, hc, retryOf, appendsIn_self]
  · have h := runStage_retry "code" res { s with has_code := check_has_code s.content } v
    simpa [validate_code, hc, retryOf] using h

theorem runStageByName_retry (name : String) (res : Option Judgment) (s : ArticleState)
    (v : String) :
    retryOf (runStageByName name res s) v =
      retryOf s v + appendsIn v s.failed_nodes (runStageByName name res s).failed_nodes := by
  unfold runStageByName
  split
  · exact runStage_retry "structure" res s v
  · exact runStage_retry "language" res s v
  · exact runStage_retry "grammar" res s v
  · exact validate_length_retry res s v
  · exact validate_math_retry res s v
  · exact runStage_retry "depth" res s v
  · exact validate_readability_retry res s v
  · exact validate_code_retry res s v
  · simp [retryOf, appendsIn_self]

theorem stepRun_retry (s : ArticleState) (st : Step) (v : String) :
    retryOf (stepRun s st) v =
      retryOf s v + (match st with
        | Step.decide => 0
        | _ => appendsIn v s.failed_nodes (stepRun s st).failed_nodes) := by
  cases st with
  | generate res =>
    cases res with
    | none => simp [stepRun, generate_node, retryOf, appendsIn_self]
    | some text =>
      cases htt : extract_title text <;>
        simp [stepRun, generate_node, retryOf, appendsIn_self, htt]
  | stage name res => exact runStageByName_retry name res s v
  | decide => simp [stepRun, retryOf, should_regenerate_snd_retry_counts]
  | regenerate res =>
    cases res with
    | none => simp [stepRun, regenerate_node, retryOf, appendsIn_self]
    | some text => simp [stepRun, regenerate_node, retryOf, appendsIn_nil_right]
  | finalize => simp [stepRun, finalize_node, retryOf, appendsIn_self]

theorem runSteps_retry_eq (steps : List Step) (s : ArticleState) (v : String) :
    retryOf (runSteps s steps) v = retryOf s v + stageAppearancesFrom v s steps := by
  induction steps generalizing s with
  | nil => simp [runSteps, stageAppearancesFrom]
  | cons st rest ih =>
    have hstep := stepRun_retry s st v
    show retryOf (runSteps (stepRun s st) rest) v =
      retryOf s v + stageAppearancesFrom v s (st :: rest)
    rw [ih (stepRun s st), hstep]
    cases st <;> simp [stageAppearancesFrom] <;> omega

theorem stageAppearances_le_appearances (steps : List Step) (s : ArticleState) (v : String) :
    stageAppearancesFrom v s steps ≤ appearancesFrom v s steps := by
  induction steps generalizing s with
  | nil => exact Nat.le_refl 0
  | cons st rest ih =>
    unfold stageAppearancesFrom appearancesFrom
    refine Nat.add_le_add ?_ (ih (stepRun s st))
    cases st <;> simp

/-! ## Version-numbering lemmas -/

theorem applyCreates_append_singleton (l : List String) (a : String) :
    applyCreates (l ++ [a]) = create_version (applyCreates l) a := by
  simp [applyCreates, List.foldl_append]

theorem versionsOf_applyCreates (calls : List String) (aid : String) :
    versionsOf (applyCreates calls) aid = List.range' 1 (calls.count aid) := by
  induction calls using List.reverseRecOn with
  | nil => rfl
  | append_singleton l a ih =>
    rw [applyCreates_append_singleton]
    have hlen : ((applyCreates l).filter (fun r => decide (r.article_id = aid))).length =
        l.count aid := by
      have h := congrArg List.length ih
      simpa [versionsOf] using h
    by_cases h : a = aid
    · subst h
      have hcnt : (l ++ [a]).count a = l.count a + 1 := by
        simp [List.count_append]
      rw [hcnt, List.range'_concat]
      unfold create_version versionsOf
      rw [List.filter_append, List.map_append]
      unfold versionsOf at ih
      rw [ih]
      simp [hlen, Nat.add_comm]
    · have hcnt : (l ++ [a]).count aid = l.count aid := by
        simp [List.count_append, List.count_singleton, h]
      rw [hcnt]
      unfold create_version versionsOf
      rw [List.filter_append, List.map_append]
      unfold versionsOf at ih
      rw [ih]
      simp [h]

/-! ## Queue lemmas -/

theorem update_queue_status_positions (db : List QueueRow) (sid st : String) :
    (update_queue_status db sid st).map (fun r => (r.session_id, r.position)) =
      db.map (fun r => (r.session_id, r.position)) := by
  induction db with
  | nil => rfl
  | cons r rest ih =>
    unfold update_queue_status
    by_cases h : r.session_id = sid
    · simp [h]
    · simp [h, ih]

/-! ## Consecutive evaluations of the decision policy -/

theorem should_regenerate_append_inv (s : ArticleState) (v : String)
    (h : (should_regenerate s).2.failed_nodes = s.failed_nodes ++ [v]) :
    s.failed_nodes = [] ∧ (should_regenerate s).1 = "regenerate" ∧
      (should_regenerate s).2 = { s with failed_nodes := s.failed_nodes ++ [v] } := by
  rcases should_regenerate_cases s with hc | ⟨v', h1, h2, h3, h4⟩
  · rw [hc] at h
    have hlen := congrArg List.length h
    simp at hlen
  · have hvv : s.failed_nodes ++ [v'] = s.failed_nodes ++ [v] := by
      rw [← h, h4]
    have hv : v' = v := by
      have h5 := List.append_cancel_left hvv
      simpa using h5
    subst hv
    exact ⟨h3, by rw [h4], by rw [h4]⟩

theorem should_regenerate_second_eval (s : ArticleState) (v : String)
    (h : (should_regenerate s).2.failed_nodes = s.failed_nodes ++ [v]) :
    (should_regenerate ((should_regenerate s).2)).1 =
      (if MAX_RETRIES ≤ retryOf s v then "finalize" else "regenerate") := by
  obtain ⟨hfe, hreg, hsnd⟩ := should_regenerate_append_inv s v h
  by_cases hmax : MAX_RETRIES ≤ dictGetD s.retry_counts v 0
  · rw [hsnd]
    simp [should_regenerate, hfe, hmax, retryOf]
  · rw [hsnd]
    simp [should_regenerate, hfe, hmax, retryOf]

/-! ## Claims -/

/-- C1: the decision policy routes exactly as claimed.  With failed nodes
present it finalizes precisely when some failed node's retry counter has
reached MAX_RETRIES (5) and regenerates otherwise; with none it takes the
mean of the scores (0 when empty), finalizes at or above PUBLISH_THRESHOLD
(8.5), and below it regenerates exactly when the first lowest-scoring stage
sits below MIN_SCORE_THRESHOLD (7.5), appending that stage to failed_nodes;
otherwise it finalizes.  Eight scores of 8.0 with no failed nodes give
finalize. -/
theorem C1_decision_policy :
    (∀ s : ArticleState, (should_regenerate s).1 = decisionSpec s) ∧
      (∀ (s : ArticleState) (v : String),
        s.failed_nodes = [] → mean_scores s.scores < PUBLISH_THRESHOLD →
        lowestScoringStage s.scores = some v →
        dictGetD s.scores v 0 < MIN_SCORE_THRESHOLD →
        should_regenerate s =
          ("regenerate", { s with failed_nodes := s.failed_nodes ++ [v] })) ∧
      (should_regenerate sEights).1 = "finalize" := by
  refine ⟨should_regenerate_routes_as_spec, ?_, by with_unfolding_all decide⟩
  intro s v hfe hlt hls hv
  have hda : dictArgmin s.scores = some v := by
    rw [dictArgmin_eq_lowestScoringStage]; exact hls
  simp [should_regenerate, hfe, hlt, hda, hv]

/-- Witness for C1: on a concrete state with a single grammar score of 6.0
the policy appends grammar and regenerates. -/
theorem C1_decision_policy_witness :
    should_regenerate sIdem =
      ("regenerate", { sIdem with failed_nodes := sIdem.failed_nodes ++ ["grammar"] }) :=
  C1_decision_policy.2.1 sIdem "grammar" (by decide) (by with_unfolding_all decide)
    (by with_unfolding_all decide) (by with_unfolding_all decide)

/-- C2 counterexample: on the concrete two-pass run `cTrace` (grammar below
threshold in pass one, the grammar adapter call failing in pass two so the
stale score survives), grammar is appended to failed_nodes twice — once by
its stage and once by the final decision — yet its retry counter ends at 1:
the counter neither equals the number of appearances nor bounds it from
below. -/
theorem C2_counterexample :
    appearancesFrom "grammar" cInit cTrace = 2 ∧
      retryOf (runSteps cInit cTrace) "grammar" = 1 ∧
      ¬(appearancesFrom "grammar" cInit cTrace ≤
          retryOf (runSteps cInit cTrace) "grammar") := by
  with_unfolding_all decide

/-- C2 as amended: along every run, retry_counts[v] is non-decreasing and
equals its initial value plus the number of validator-stage appends of `v`
to failed_nodes; appends performed by the decision policy are not counted,
so the counter is bounded by — but can fall short of — the total number of
appearances. -/
theorem C2_retry_counter_accounting :
    (∀ (steps : List Step) (s : ArticleState) (v : String),
        retryOf (runSteps s steps) v = retryOf s v + stageAppearancesFrom v s steps) ∧
      (∀ (steps : List Step) (s : ArticleState) (v : String),
        stageAppearancesFrom v s steps ≤ appearancesFrom v s steps) ∧
      (∀ (steps : List Step) (s : ArticleState) (v : String),
        retryOf s v ≤ retryOf (runSteps s steps) v) := by
  refine ⟨runSteps_retry_eq, stageAppearances_le_appearances, ?_⟩
  intro steps s v
  rw [runSteps_retry_eq]
  exact Nat.le_add_right _ _

/-- C3 counterexample: a retry-exhausted state carries status "failed" into
finalization, and the finalize node overwrites it with "completed", both on
the state and in the persisted article update. -/
theorem C3_counterexample :
    sFailed.status = "failed" ∧
      (finalize_node sFailed).1.status = "completed" ∧
      (finalize_node sFailed).2 = [DbEvent.updateArticle "a1" "completed"] := by
  with_unfolding_all decide

/-- C3 as amended: on its success path the finalize node unconditionally
sets status "completed" and persists the article as completed, whatever
status — "processing", "failed" or "error" — the state carried before; a
"failed" status set at retry exhaustion does not survive finalization. -/
theorem C3_finalize_overwrites_status (s : ArticleState) :
    (finalize_node s).1.status = "completed" ∧
      (finalize_node s).2 = [DbEvent.updateArticle s.article_id "completed"] := by
  constructor <;> rfl

/-- C4: the compiled graph has only unconditional edges between stages, so
after the structure stage's adapter call raises and sets status "error",
the controller still advances to the language stage, the language stage
still runs and writes its score, and the finalize node would even overwrite
the error status with "completed". -/
theorem C4_error_state_progression :
    (validate_structure none (generate_node (some "hello world") cInit).1).status =
        "error" ∧
      next_node "validate_structure"
          (validate_structure none (generate_node (some "hello world") cInit).1) =
        some "validate_language" ∧
      (validate_language (some (jScore 8))
          (validate_structure none (generate_node (some "hello world") cInit).1)).scores =
        [("language", 8)] ∧
      (finalize_node
          (validate_structure none
            (generate_node (some "hello world") cInit).1)).1.status = "completed" := by
  with_unfolding_all decide

/-- C5 counterexample: on a state whose has_math flag is set while the
content carries no equation span, the gated math stage does not leave the
state otherwise unchanged — it also flips has_math to false. -/
theorem C5_counterexample :
    ¬(validate_math none sMathFlag =
        { sMathFlag with
            scores := dictSet sMathFlag.scores "math" 10,
            feedback := dictSet sMathFlag.feedback "math"
              (Judgment.mk 10 "No mathematical content to validate" 0 "N/A" 0 0) }) ∧
      sMathFlag.has_math = true ∧ (validate_math none sMathFlag).has_math = false := by
  with_unfolding_all decide

/-- C5 as amended: whenever the content has no `\$.*?\$` span, the math
stage writes scores["math"] = 10.0 and the fixed not-applicable feedback,
records has_math := false, leaves every other field (failed_nodes and
retry_counts included) unchanged, and its result does not depend on the
adapter's reply — the adapter is never consulted. -/
theorem C5_math_gate_frame (res : Option Judgment) (s : ArticleState)
    (h : check_has_math s.content = false) :
    validate_math res s =
      { s with
          has_math := false,
          scores := dictSet s.scores "math" 10,
          feedback := dictSet s.feedback "math"
            (Judgment.mk 10 "No mathematical content to validate" 0 "N/A" 0 0) } := by
  simp [validate_math, h]

/-- Witness for C5 at a concrete state. -/
theorem C5_math_gate_frame_witness :
    validate_math none sMathFlag =
      { sMathFlag with
          has_math := false,
          scores := dictSet sMathFlag.scores "math" 10,
          feedback := dictSet sMathFlag.feedback "math"
            (Judgment.mk 10 "No mathematical content to validate" 0 "N/A" 0 0) } :=
  C5_math_gate_frame none sMathFlag (by decide)

/-- C6 counterexample: evaluating the policy can alter failed_nodes, and on
a state whose single low score belongs to a stage with an exhausted retry
counter, two consecutive evaluations disagree: the first regenerates, the
second finalizes. -/
theorem C6_counterexample :
    (should_regenerate sIdem).1 = "regenerate" ∧
      (should_regenerate (should_regenerate sIdem).2).1 = "finalize" ∧
      (should_regenerate sIdem).2.failed_nodes ≠ sIdem.failed_nodes := by
  with_unfolding_all decide

/-- C6 as amended: the routing decision is a pure function of the state —
the policy never changes scores or retry_counts and alters at most
failed_nodes; when it performs no append, re-running it returns the same
decision and state, and when it appends a stage whose retry counter is
below MAX_RETRIES the second evaluation still agrees; only an appended
stage with an exhausted counter flips the second evaluation from
regenerate to finalize. -/
theorem C6_policy_evaluation :
    (∀ s : ArticleState,
        (should_regenerate s).2.scores = s.scores ∧
          (should_regenerate s).2.retry_counts = s.retry_counts) ∧
      (∀ s : ArticleState, (should_regenerate s).2.failed_nodes = s.failed_nodes →
        should_regenerate ((should_regenerate s).2) = should_regenerate s) ∧
      (∀ (s : ArticleState) (v : String),
        (should_regenerate s).2.failed_nodes = s.failed_nodes ++ [v] →
        retryOf s v < MAX_RETRIES →
        (should_regenerate ((should_regenerate s).2)).1 = (should_regenerate s).1) ∧
      (∀ (s : ArticleState) (v : String),
        (should_regenerate s).2.failed_nodes = s.failed_nodes ++ [v] →
        MAX_RETRIES ≤ retryOf s v →
        (should_regenerate s).1 = "regenerate" ∧
          (should_regenerate ((should_regenerate s).2)).1 = "finalize") := by
  refine ⟨fun s => ⟨should_regenerate_snd_scores s, should_regenerate_snd_retry_counts s⟩,
    ?_, ?_, ?_⟩
  · intro s h
    rcases should_regenerate_cases s with hc | ⟨v, h1, h2, h3, h4⟩
    · rw [hc]
    · rw [h4] at h
      have hlen := congrArg List.length h
      simp at hlen
  · intro s v h hlt
    rw [should_regenerate_second_eval s v h, if_neg (Nat.not_le.mpr hlt),
      (should_regenerate_append_inv s v h).2.1]
  · intro s v h hmax
    exact ⟨(should_regenerate_append_inv s v h).2.1,
      by rw [should_regenerate_second_eval s v h, if_pos hmax]⟩

/-- Witness for C6 at concrete states: no append on the all-eights state,
append with an exhausted counter on `sIdem`. -/
theorem C6_policy_evaluation_witness :
    should_regenerate ((should_regenerate sEights).2) = should_regenerate sEights ∧
      ((should_regenerate sIdem).1 = "regenerate" ∧
        (should_regenerate ((should_regenerate sIdem).2)).1 = "finalize") :=
  ⟨C6_policy_evaluation.2.1 sEights (by with_unfolding_all decide),
    C6_policy_evaluation.2.2.2 sIdem "grammar" (by with_unfolding_all decide)
      (by with_unfolding_all decide)⟩

/-- C7: on the content with one inline and one display equation, extraction
yields exactly those two equations with the display match collected first
(so the inline scan cannot re-match inside it); processing (with every
image rendering succeeding, as the model assumes) replaces each span with a
distinct image reference, reports an equation count of 2, and the extractor
finds no equation in the transformed text. -/
theorem C7_equation_processing :
    extract_equations "$E=mc^2$ and $$a^2+b^2=c^2$$" =
      [Equation.mk "a^2+b^2=c^2" "display" 13, Equation.mk "E=mc^2" "inline" 0] ∧
      process_article_equations "$E=mc^2$ and $$a^2+b^2=c^2$$" "a1" =
        ("\n\n![Equation 2](/static/images/eq_a1_1.png)\n\n and \n\n![Equation 1](/static/images/eq_a1_0.png)\n\n",
          2) ∧
      extract_equations
          "\n\n![Equation 2](/static/images/eq_a1_1.png)\n\n and \n\n![Equation 1](/static/images/eq_a1_0.png)\n\n" =
        [] := by
  decide

/-- C8: for any interleaving of create_version calls across articles, the
version numbers stored for one article form the gapless strictly increasing
sequence 1, 2, …, counted per call for that article; and the generate and
regenerate nodes each persist exactly one version on success. -/
theorem C8_version_numbering :
    (∀ (calls : List String) (aid : String),
        versionsOf (applyCreates calls) aid = List.range' 1 (calls.count aid)) ∧
      (∀ (text : String) (s : ArticleState),
        countCreateVersion (generate_node (some text) s).2 = 1) ∧
      (∀ (text : String) (s : ArticleState),
        countCreateVersion (regenerate_node (some text) s).2 = 1) := by
  refine ⟨versionsOf_applyCreates, ?_, ?_⟩
  · intro text s
    cases htt : extract_title text <;> simp [generate_node, countCreateVersion, htt]
  · intro text s
    simp [regenerate_node, countCreateVersion]

/-- C9: the time-travel endpoint applies an override only when its key
already exists in the checkpoint state (absent keys are silently ignored
and stay absent), leaves every field not named in the overrides unchanged,
and always replaces article_id with the freshly generated id. -/
theorem C9_time_travel {α : Type} (state mods : List (String × α)) (new_article_id : α) :
    dictGet (time_travel_state state mods new_article_id) "article_id" =
        some new_article_id ∧
      (∀ k : String, k ≠ "article_id" → (∀ kv ∈ mods, kv.1 ≠ k) →
        dictGet (time_travel_state state mods new_article_id) k = dictGet state k) ∧
      (∀ k : String, k ≠ "article_id" → dictGet state k = none →
        dictGet (time_travel_state state mods new_article_id) k = none) := by
  refine ⟨dictGet_dictSet_self _ _ _, ?_, ?_⟩
  · intro k hk hmods
    unfold time_travel_state
    rw [dictGet_dictSet_ne _ _ _ _ hk, apply_modifications_frame mods state k hmods]
  · intro k hk habs
    unfold time_travel_state
    rw [dictGet_dictSet_ne _ _ _ _ hk]
    exact apply_modifications_absent mods state k habs

/-- Witness for C9 on a concrete checkpoint state and override mapping. -/
theorem C9_time_travel_witness :
    dictGet (time_travel_state [("article_id", (1 : Nat)), ("status", 2)]
        [("status", 9), ("bogus", 7)] 5) "article_id" = some 5 ∧
      dictGet (time_travel_state [("article_id", (1 : Nat)), ("status", 2)]
          [("status", 9), ("bogus", 7)] 5) "extra" =
        dictGet [("article_id", (1 : Nat)), ("status", 2)] "extra" ∧
      dictGet (time_travel_state [("article_id", (1 : Nat)), ("status", 2)]
          [("status", 9), ("bogus", 7)] 5) "bogus" = none :=
  ⟨(C9_time_travel _ _ _).1,
    (C9_time_travel _ _ _).2.1 "extra" (by decide) (by decide),
    (C9_time_travel _ _ _).2.2 "bogus" (by decide) (by decide)⟩

/-- C10: add_to_queue numbers a new row as (count of rows currently queued)
plus one, update_queue_status never renumbers the remaining rows, and in
the concrete scenario — enqueue a, enqueue b, move a to processing, enqueue
c — session c receives position 2, equal to the still-queued session b's
position, so queue positions are not unique. -/
theorem C10_queue_positions :
    (∀ (db : List QueueRow) (sid st : String),
        (update_queue_status db sid st).map (fun r => (r.session_id, r.position)) =
          db.map (fun r => (r.session_id, r.position))) ∧
      (∀ (db : List QueueRow) (sid : String),
        (add_to_queue db sid).2 =
          (db.filter (fun r => r.status = "queued")).length + 1) ∧
      ((add_to_queue [] "a").2 = 1 ∧
        (add_to_queue (add_to_queue [] "a").1 "b").2 = 2 ∧
        (add_to_queue (update_queue_status (add_to_queue (add_to_queue [] "a").1 "b").1
            "a" "processing") "c").2 = 2 ∧
        (add_to_queue (update_queue_status (add_to_queue (add_to_queue [] "a").1 "b").1
            "a" "processing") "c").1 =
          [QueueRow.mk "a" 1 "processing", QueueRow.mk "b" 2 "queued",
            QueueRow.mk "c" 2 "queued"]) := by
  refine ⟨update_queue_status_positions, fun db sid => rfl, ?_⟩
  decide
